import Mathlib

/-!
Verification of the API access layer of the KB document-management client.

The definitions below are a shallow embedding of the TypeScript source:
* the axios response interceptor of createApiInstance (401 handling,
  token refresh, error normalization),
* AuthService (refreshToken, isAuthenticated, getLocalUser) and
  AuthStateManager.notifyStateChange,
* RequestCache (set/get/delete/clear) and cachedApiService.get,
* ApiService.retry and ApiService.batch.

Times are epoch milliseconds modelled as Int; payloads, tokens and keys
are modelled as Strings; network outcomes are supplied as explicit
values so state-passing code stays pure.
-/

/-- JavaScript `a || b` on strings: the empty string is falsy. -/
def jsOr (a b : String) : String := if a = "" then b else a

/-- JavaScript `x || b` where `x : Option String` is a possibly-undefined
string: `none` and the empty string both fall through to `b`. -/
def jsOrOpt (x : Option String) (b : String) : String :=
  match x with
  | some s => jsOr s b
  | none => b

/-- JavaScript `x || y` where both sides are possibly-undefined strings. -/
def jsOrOpt2 (x y : Option String) : Option String :=
  match x with
  | some s => if s = "" then y else some s
  | none => y

/-- Structured JSON body of a server error response
(`error.response.data`): optional `message`, `code`, `details` fields. -/
structure ServerData where
  message : Option String
  code : Option String
  details : Option String
deriving Repr, DecidableEq

/-- `error.response`: HTTP status plus the decoded body. -/
structure AxiosResp where
  status : Nat
  data : ServerData
deriving Repr, DecidableEq

/-- An axios error: transport-level `message`, optional transport `code`,
and `response` present exactly when the server answered. -/
structure AxiosError where
  message : String
  code : Option String
  response : Option AxiosResp
deriving Repr, DecidableEq

/-- The `details` field of a normalized error: either the body's own
`details` value or the whole raw server payload. -/
abbrev ErrDetails := Sum String ServerData

/-- The normalized error shape `{message, code, details}` (type ApiError
in the source). -/
structure ApiError where
  message : String
  code : Option String
  details : Option ErrDetails
deriving Repr, DecidableEq

/-- Embeds the apiError construction of the response interceptor:
`message: error.response?.data?.message || error.message || '请求失败'`,
`code: error.response?.data?.code || error.code`,
`details: error.response?.data?.details || error.response?.data`. -/
def normalizeError (e : AxiosError) : ApiError :=
  { message := jsOrOpt (e.response.bind (fun r => r.data.message)) (jsOr e.message "请求失败")
    code := jsOrOpt2 (e.response.bind (fun r => r.data.code)) e.code
    details :=
      match e.response with
      | none => none
      | some r =>
        match r.data.details with
        | some d => if d = "" then some (Sum.inr r.data) else some (Sum.inl d)
        | none => some (Sum.inr r.data) }

/-- `error.response?.status`. -/
def errStatus (e : AxiosError) : Option Nat := e.response.map (fun r => r.status)

/-- One stored cache item: `{ data, timestamp, ttl }`. -/
structure CacheEntry where
  data : String
  timestamp : Int
  ttl : Int
deriving Repr, DecidableEq

/-- The RequestCache `Map`, as an association list keyed by strings. -/
abbrev RequestCache := List (String × CacheEntry)

/-- `Map.get`: the entry currently bound to `key`, if any. -/
def cacheFind : RequestCache → String → Option CacheEntry
  | [], _ => none
  | (k, e) :: rest, key => if key = k then some e else cacheFind rest key

/-- `Map.delete(key)`. -/
def cacheDelete : RequestCache → String → RequestCache
  | [], _ => []
  | (k, e) :: rest, key =>
    if k = key then cacheDelete rest key else (k, e) :: cacheDelete rest key

/-- `RequestCache.set(key, data, ttl)`: stores or overwrites, recording
the current time as `timestamp`. -/
def cacheSet (c : RequestCache) (key data : String) (ttl now : Int) : RequestCache :=
  (key, { data := data, timestamp := now, ttl := ttl }) :: cacheDelete c key

/-- The source's default ttl of `5 * 60 * 1000` milliseconds. -/
def defaultTtl : Int := 5 * 60 * 1000

/-- `RequestCache.get(key)` at current time `now`: misses on an absent
key; on `now - timestamp > ttl` deletes the entry and misses; otherwise
returns the stored data. Returns the possibly-updated cache alongside. -/
def cacheGet (c : RequestCache) (key : String) (now : Int) : Option String × RequestCache :=
  match cacheFind c key with
  | none => (none, c)
  | some item =>
    if now - item.timestamp > item.ttl then (none, cacheDelete c key)
    else (some item.data, c)

/-- `RequestCache.clear()`. -/
def cacheClear (_ : RequestCache) : RequestCache := []

/-- Decidable equality for `Except`, needed to evaluate run results on
concrete inputs. -/
instance {ε α : Type} [DecidableEq ε] [DecidableEq α] : DecidableEq (Except ε α) :=
  fun a b =>
    match a, b with
    | .error x, .error y => decidable_of_iff (x = y) (by simp)
    | .ok x, .ok y => decidable_of_iff (x = y) (by simp)
    | .error _, .ok _ => isFalse (by simp)
    | .ok _, .error _ => isFalse (by simp)

/-- Observable client-side state threaded through the interceptor: the
three durable localStorage keys (access token, refresh token, user
snapshot), the in-memory request cache, a counter of refresh network
calls issued, and whether the browser was redirected to the login page. -/
structure ClientState where
  access : Option String
  refresh : Option String
  user : Option String
  cache : RequestCache
  refreshCalls : Nat
  redirected : Bool
deriving Repr, DecidableEq

/-- Outcome of one request as observed by its caller, plus the final
client state and the number of times the original request was replayed
through the instance. -/
structure RunResult where
  result : Except ApiError String
  state : ClientState
  replays : Nat
deriving Repr, DecidableEq

/-- Outcome of the refresh network call
(`axios.post(.../auth/token/refresh/)`), supplied by the environment. -/
inductive RefreshResult where
  | ok (access : String)
  | failed
deriving Repr, DecidableEq

/-- Embeds the response-interceptor error handler of createApiInstance.
`retried` is the request's `_retry` flag; `outcomes` gives the network
outcome of each dispatch attempt of this request; `refreshO` is the
outcome of the refresh call should one be issued.

On a 401 with `_retry` unset, the flag is set and, if a refresh token is
stored, a refresh call is issued: on success the new access token is
stored and the original request is replayed through the same handler
(with `_retry` now set); on failure the three storage keys are removed
and the browser is redirected to the login page. Every non-replayed
error path rejects with the normalized error of the current failure. -/
def runStep (retried : Bool) (outcomes : Nat → Except AxiosError String)
    (refreshO : RefreshResult) (st : ClientState) (attempt : Nat) : RunResult :=
  match outcomes attempt with
  | .ok p => { result := .ok p, state := st, replays := 0 }
  | .error e =>
    if h : errStatus e = some 401 ∧ retried = false then
      match st.refresh with
      | some _ =>
        let st1 := { st with refreshCalls := st.refreshCalls + 1 }
        match refreshO with
        | .ok tok =>
          let st2 := { st1 with access := some tok }
          let r := runStep true outcomes refreshO st2 (attempt + 1)
          { result := r.result, state := r.state, replays := r.replays + 1 }
        | .failed =>
          let st2 := { st1 with access := none, refresh := none, user := none, redirected := true }
          { result := .error (normalizeError e), state := st2, replays := 0 }
      | none => { result := .error (normalizeError e), state := st, replays := 0 }
    else { result := .error (normalizeError e), state := st, replays := 0 }
termination_by (if retried then 0 else 1)
decreasing_by simp [h.2]

/-- `AuthService.isAuthenticated()`: `!!(token && user)`. -/
def isAuthenticated (st : ClientState) : Bool :=
  st.access.isSome && st.user.isSome

/-- `AuthService.getLocalUser()`: the parsed stored user snapshot, or
null when the key is absent. -/
def getLocalUser (st : ClientState) : Option String := st.user

/-- `AuthStateManager.notifyStateChange()`: the
`(isAuthenticated, user)` pair passed to every registered listener. -/
def notifyStateChange (st : ClientState) : Bool × Option String :=
  (isAuthenticated st, getLocalUser st)

/-- What `AuthService.refreshToken` throws: the early `Error` when no
refresh token is stored, or the normalized error propagated from the
intercepted POST. -/
inductive RefreshTokenError where
  | noToken
  | post (e : ApiError)
deriving Repr, DecidableEq

/-- Embeds `AuthService.refreshToken`: throws when no refresh token is
stored; otherwise POSTs the refresh endpoint through the intercepted
`api` instance — so the response interceptor applies to this POST too
(`outcomes` are its dispatch outcomes and `refreshO` the outcome of a
nested bare-axios refresh should the POST itself 401; a failed nested
refresh clears the three storage keys inside the interceptor). On a
successful POST the returned access token is stored. The returned state
is the storage after the call. -/
def authRefreshToken (outcomes : Nat → Except AxiosError String)
    (refreshO : RefreshResult) (st : ClientState) :
    Except RefreshTokenError String × ClientState :=
  match st.refresh with
  | none => (.error .noToken, st)
  | some _ =>
    let r := runStep false outcomes refreshO st 0
    match r.result with
    | .ok access => (.ok access, { r.state with access := some access })
    | .error e => (.error (.post e), r.state)

/-- Embeds `cachedApiService.get`: builds the cache key from the URL and
the serialized params, consults the cache unless `config.cache === false`
(a lookup may evict an expired entry), dispatches the network GET on a
miss, and stores a successful payload with `config.ttl` (defaulted)
unless caching is disabled. `net` is the network outcome of the GET. -/
def cachedGet (now : Int) (url pkey : String) (cfgCache : Option Bool)
    (cfgTtl : Option Int) (net : Except ApiError String) (c : RequestCache) :
    Except ApiError String × RequestCache :=
  let cacheKey := url ++ "_" ++ pkey
  let looked := if cfgCache ≠ some false then cacheGet c cacheKey now else (none, c)
  match looked.1 with
  | some v => (.ok v, looked.2)
  | none =>
    match net with
    | .error e => (.error e, looked.2)
    | .ok data =>
      let c2 := if cfgCache ≠ some false then
          cacheSet looked.2 cacheKey data (cfgTtl.getD defaultTtl) now
        else looked.2
      (.ok data, c2)

/-- Trace of one `ApiService.retry` run: the final outcome, how many
times the operation was invoked, and the backoff delays slept between
attempts, in order. -/
structure RetryTrace (ε α : Type) where
  result : Except ε α
  invocations : Nat
  delays : List Nat
deriving Repr, DecidableEq

/-- The loop body of `ApiService.retry` at attempt index `i` with
`remaining = maxRetries - i` retries still allowed: invoke the
operation; on success return its value; on a failure with retries left
(`i < maxRetries`) sleep `delay * 2 ^ i` and continue; otherwise rethrow
the last error. -/
def retryGo {ε α : Type} (op : Nat → Except ε α) (delay i remaining : Nat) :
    RetryTrace ε α :=
  match op i with
  | .ok a => { result := .ok a, invocations := 1, delays := [] }
  | .error e =>
    match remaining with
    | 0 => { result := .error e, invocations := 1, delays := [] }
    | r + 1 =>
      let rest := retryGo op delay (i + 1) r
      { result := rest.result, invocations := rest.invocations + 1,
        delays := delay * 2 ^ i :: rest.delays }

/-- `ApiService.retry(request, maxRetries, delay)` (source defaults:
`maxRetries = 3`, `delay = 1000`): the loop `for i in 0..=maxRetries`. -/
def retry {ε α : Type} (op : Nat → Except ε α) (maxRetries delay : Nat) :
    RetryTrace ε α :=
  retryGo op delay 0 maxRetries

/-- The mapping step of `ApiService.batch` over the settled results,
carrying the running index: a fulfilled result contributes its value; the
first rejected result logs its index and throws, aborting the map. Returns
the overall outcome and the list of logged indices. -/
def batchGo (results : List (Except ApiError String)) (idx : Nat) :
    Except ApiError (List String) × List Nat :=
  match results with
  | [] => (.ok [], [])
  | .ok v :: rest =>
    match batchGo rest (idx + 1) with
    | (.ok vs, logs) => (.ok (v :: vs), logs)
    | (.error e, logs) => (.error e, logs)
  | .error e :: _ => (.error e, [idx])

/-- `ApiService.batch(requests)`: all operations are run to completion by
`Promise.allSettled` (their settled results are the input list); the
results are then mapped from index 0 as in `batchGo`. -/
def batchRun (results : List (Except ApiError String)) :
    Except ApiError (List String) × List Nat :=
  batchGo results 0

/-- Atomic segments of one request's 401 handler, split at its `await`
boundary: `issueRefresh` reads the stored refresh token and, when it is
present, starts the refresh network call; `completeRefresh tok` runs
after that call resolves, storing the new access token and replaying the
original request. -/
inductive RAct where
  | issueRefresh
  | completeRefresh (tok : String)
deriving Repr, DecidableEq

/-- Shared state seen by concurrently running 401 handlers: the stored
tokens, the number of refresh network calls issued so far, and the number
of completed replays. -/
structure IState where
  access : Option String
  refresh : Option String
  refreshCalls : Nat
  replays : Nat
deriving Repr, DecidableEq

/-- Effect of one atomic handler segment on the shared state. The code
guards the refresh call only on the refresh token being present in
storage; it consults no shared in-flight-refresh marker. -/
def iexec (σ : IState) (a : RAct) : IState :=
  match a with
  | .issueRefresh =>
    if σ.refresh.isSome then { σ with refreshCalls := σ.refreshCalls + 1 } else σ
  | .completeRefresh tok =>
    { σ with access := some tok, replays := σ.replays + 1 }

/-- Runs a schedule of atomic segments left to right. -/
def iexecList (σ : IState) : List RAct → IState
  | [] => σ
  | a :: rest => iexecList (iexec σ a) rest

/-- The trace of one request's 401 handler whose refresh call resolves
with token `tok`: issue the refresh, then complete it and replay. -/
def handlerTrace (tok : String) : List RAct :=
  [.issueRefresh, .completeRefresh tok]

/-- `PickHead ls a ls2`: schedule step — some request whose next pending
segment is `a` runs it; `ls2` is the lists of remaining segments. -/
inductive PickHead : List (List RAct) → RAct → List (List RAct) → Prop
  | here (a : RAct) (rest : List RAct) (ls : List (List RAct)) :
      PickHead ((a :: rest) :: ls) a (rest :: ls)
  | there (l : List RAct) {ls : List (List RAct)} {a : RAct}
      {ls2 : List (List RAct)} : PickHead ls a ls2 → PickHead (l :: ls) a (l :: ls2)

/-- `Interleaving ls zs`: `zs` is a cooperative schedule of the requests
whose pending segment lists are `ls`, each request's segments kept in
program order. -/
inductive Interleaving : List (List RAct) → List RAct → Prop
  | nil (ls : List (List RAct)) (h : ∀ l ∈ ls, l = []) : Interleaving ls []
  | cons {ls ls2 : List (List RAct)} {a : RAct} {zs : List RAct}
      (hp : PickHead ls a ls2) (ht : Interleaving ls2 zs) : Interleaving ls (a :: zs)

/-- Recognizes the segment that issues a refresh network call. -/
def isIssue : RAct → Bool
  | .issueRefresh => true
  | .completeRefresh _ => false

/-- Recognizes the segment that completes a refresh and replays. -/
def isComplete : RAct → Bool
  | .issueRefresh => false
  | .completeRefresh _ => true

/-- The state after the interceptor's refresh-failure branch: refresh
call counted, all three storage keys removed, browser redirected. The
request cache is untouched by this branch. -/
def loggedOutState (st : ClientState) : ClientState :=
  { st with refreshCalls := st.refreshCalls + 1, access := none, refresh := none, user := none, redirected := true }

/-! ## Concrete inputs used in witnesses and counterexamples -/

/-- A schedule in which two requests both issue their refresh calls
before either resolves. -/
def sched2 : List RAct :=
  [.issueRefresh, .issueRefresh, .completeRefresh "t1", .completeRefresh "t2"]

/-- A shared state holding a stored refresh token. -/
def sigma0 : IState :=
  { access := some "stale", refresh := some "r", refreshCalls := 0, replays := 0 }

/-- A server 401 response with an empty structured body. -/
def err401 : AxiosError :=
  { message := "Request failed with status code 401", code := some "ERR_BAD_REQUEST",
    response := some { status := 401, data := { message := none, code := none, details := none } } }

/-- An environment in which every dispatch of the request returns 401. -/
def outAll401 : Nat → Except AxiosError String := fun _ => .error err401

/-- A transport-level failure: no server response. -/
def netErr : AxiosError :=
  { message := "Network Error", code := some "ERR_NETWORK", response := none }

/-- A fully authenticated client state with an empty cache. -/
def stAuthed : ClientState :=
  { access := some "acc", refresh := some "ref", user := some "u", cache := [],
    refreshCalls := 0, redirected := false }

/-- A long-lived cache entry. -/
def entry0 : CacheEntry := { data := "cached", timestamp := 0, ttl := 300000 }

/-- An authenticated client state whose request cache holds an entry. -/
def stWithCache : ClientState :=
  { access := some "acc", refresh := some "ref", user := some "u",
    cache := [("doc", entry0)], refreshCalls := 0, redirected := false }

/-- Two distinct normalized errors. -/
def errA : ApiError := { message := "boom1", code := none, details := none }

/-- Second failing operation's error. -/
def errB : ApiError := { message := "boom2", code := none, details := none }

/-- An operation that fails twice and then succeeds. -/
def opW : Nat → Except Nat Nat := fun i => if i < 2 then .error 7 else .ok 42

/-- A cache holding an expired entry under the key built from URL `u`
and params `p`. -/
def cExp : RequestCache := [("u_p", { data := "old", timestamp := 0, ttl := 5 })]

/-- A refresh-endpoint POST that succeeds on its first dispatch,
returning a new access token. -/
def okPost : Nat → Except AxiosError String := fun _ => .ok "srvAcc"

/-! ## Basic lemmas about the cache -/

theorem cacheFind_delete_self (c : RequestCache) (key : String) :
    cacheFind (cacheDelete c key) key = none := by
  induction c with
  | nil => rfl
  | cons p rest ih =>
    obtain ⟨k, e⟩ := p
    by_cases h : k = key
    · simpa [cacheDelete, h] using ih
    · simp [cacheDelete, h, cacheFind, Ne.symm h, ih]

theorem cacheFind_delete_ne (c : RequestCache) (key k2 : String) (h : k2 ≠ key) :
    cacheFind (cacheDelete c key) k2 = cacheFind c k2 := by
  induction c with
  | nil => rfl
  | cons p rest ih =>
    obtain ⟨k, e⟩ := p
    by_cases hk : k = key
    · have : k2 ≠ k := fun hb => h (hb ▸ hk)
      simp [cacheDelete, hk, cacheFind, this, ih, h]
    · by_cases hx : k2 = k
      · simp [cacheDelete, hk, cacheFind, hx]
      · simp [cacheDelete, hk, cacheFind, hx, ih]

theorem cacheFind_set_self (c : RequestCache) (k v : String) (ttl now : Int) :
    cacheFind (cacheSet c k v ttl now) k =
      some { data := v, timestamp := now, ttl := ttl } := by
  simp [cacheSet, cacheFind]

theorem cacheFind_set_ne (c : RequestCache) (k v : String) (ttl now : Int)
    (k2 : String) (h : k2 ≠ k) :
    cacheFind (cacheSet c k v ttl now) k2 = cacheFind c k2 := by
  simp [cacheSet, cacheFind, h, cacheFind_delete_ne c k k2 h]

theorem cacheGet_frame (c : RequestCache) (key k2 : String) (now : Int)
    (h : k2 ≠ key) : cacheFind (cacheGet c key now).2 k2 = cacheFind c k2 := by
  unfold cacheGet
  cases hf : cacheFind c key with
  | none => rfl
  | some item =>
    by_cases hex : now - item.timestamp > item.ttl
    · simp [hex, cacheFind_delete_ne c key k2 h]
    · simp [hex]

/-! ## Counting refresh calls across interleaved 401 handlers -/

theorem iexec_refresh (σ : IState) (a : RAct) : (iexec σ a).refresh = σ.refresh := by
  cases a with
  | issueRefresh => by_cases h : σ.refresh.isSome <;> simp [iexec, h]
  | completeRefresh tok => rfl

theorem iexec_refreshCalls (σ : IState) (a : RAct) (h : σ.refresh.isSome) :
    (iexec σ a).refreshCalls = σ.refreshCalls + (if isIssue a then 1 else 0) := by
  cases a <;> simp [iexec, isIssue, h]

theorem iexec_replays (σ : IState) (a : RAct) :
    (iexec σ a).replays = σ.replays + (if isComplete a then 1 else 0) := by
  cases a with
  | issueRefresh => by_cases h : σ.refresh.isSome <;> simp [iexec, isComplete, h]
  | completeRefresh tok => simp [iexec, isComplete]

theorem iexecList_refresh (σ : IState) (zs : List RAct) :
    (iexecList σ zs).refresh = σ.refresh := by
  induction zs generalizing σ with
  | nil => rfl
  | cons a rest ih => rw [iexecList, ih (iexec σ a)]; exact iexec_refresh σ a

theorem iexecList_refreshCalls (σ : IState) (zs : List RAct) (h : σ.refresh.isSome) :
    (iexecList σ zs).refreshCalls = σ.refreshCalls + zs.countP isIssue := by
  induction zs generalizing σ with
  | nil => simp [iexecList]
  | cons a rest ih =>
    have h2 : (iexec σ a).refresh.isSome := by rw [iexec_refresh]; exact h
    rw [iexecList, ih (iexec σ a) h2, iexec_refreshCalls σ a h, List.countP_cons]
    by_cases ha : isIssue a <;> simp [ha] <;> omega

theorem iexecList_replays (σ : IState) (zs : List RAct) :
    (iexecList σ zs).replays = σ.replays + zs.countP isComplete := by
  induction zs generalizing σ with
  | nil => simp [iexecList]
  | cons a rest ih =>
    rw [iexecList, ih (iexec σ a), iexec_replays σ a, List.countP_cons]
    by_cases ha : isComplete a <;> simp [ha] <;> omega

theorem pickHead_countP (p : RAct → Bool) {ls : List (List RAct)} {a : RAct}
    {ls2 : List (List RAct)} (hp : PickHead ls a ls2) :
    (ls.map (fun l => l.countP p)).sum =
      (ls2.map (fun l => l.countP p)).sum + (if p a then 1 else 0) := by
  induction hp with
  | here a rest ls =>
    simp only [List.map_cons, List.sum_cons, List.countP_cons]
    by_cases ha : p a <;> simp [ha] <;> omega
  | there l hp ih =>
    simp only [List.map_cons, List.sum_cons, ih]
    omega

theorem interleaving_countP (p : RAct → Bool) {ls : List (List RAct)}
    {zs : List RAct} (h : Interleaving ls zs) :
    zs.countP p = (ls.map (fun l => l.countP p)).sum := by
  induction h with
  | nil ls h =>
    have hz : ∀ x ∈ ls.map (fun l => l.countP p), x = 0 := by
      intro x hx
      obtain ⟨l, hl, rfl⟩ := List.mem_map.mp hx
      rw [h l hl]; rfl
    rw [List.countP_nil, List.sum_eq_zero hz]
  | cons hp ht ih =>
    rw [List.countP_cons, pickHead_countP p hp, ← ih]

theorem handlerTrace_countP_issue (tok : String) :
    (handlerTrace tok).countP isIssue = 1 := rfl

theorem handlerTrace_countP_complete (tok : String) :
    (handlerTrace tok).countP isComplete = 1 := rfl

theorem sum_countP_handlerTraces (toks : List String) (p : RAct → Bool)
    (h : ∀ tok, (handlerTrace tok).countP p = 1) :
    ((toks.map handlerTrace).map (fun l => l.countP p)).sum = toks.length := by
  induction toks with
  | nil => rfl
  | cons t rest ih =>
    simp only [List.map_cons, List.sum_cons, List.length_cons, h t, ih]
    omega

/-! ## Lemmas about retry -/

theorem retryGo_ok {ε α : Type} (op : Nat → Except ε α) (delay i remaining : Nat)
    (a : α) (h : op i = .ok a) :
    retryGo op delay i remaining = ⟨.ok a, 1, []⟩ := by
  cases remaining <;> rw [retryGo, h]

theorem retryGo_err_zero {ε α : Type} (op : Nat → Except ε α) (delay i : Nat)
    (e : ε) (h : op i = .error e) :
    retryGo op delay i 0 = ⟨.error e, 1, []⟩ := by
  rw [retryGo, h]

theorem retryGo_err_succ {ε α : Type} (op : Nat → Except ε α) (delay i r : Nat)
    (e : ε) (h : op i = .error e) :
    retryGo op delay i (r + 1) =
      ⟨(retryGo op delay (i + 1) r).result, (retryGo op delay (i + 1) r).invocations + 1,
        delay * 2 ^ i :: (retryGo op delay (i + 1) r).delays⟩ := by
  rw [retryGo, h]

theorem delays_shift (delay i n : Nat) :
    delay * 2 ^ i :: ((List.range n).map fun t => delay * 2 ^ (i + 1 + t)) =
      (List.range (n + 1)).map fun t => delay * 2 ^ (i + t) := by
  simp only [List.range_succ_eq_map, List.map_cons, List.map_map]
  have hh : delay * 2 ^ (i + 0) = delay * 2 ^ i := by norm_num
  have ht : (List.range n).map ((fun t => delay * 2 ^ (i + t)) ∘ Nat.succ) =
      (List.range n).map fun t => delay * 2 ^ (i + 1 + t) := by
    apply List.map_congr_left
    intro t _
    simp only [Function.comp_apply, Nat.succ_eq_add_one]
    rw [show i + (t + 1) = i + 1 + t by omega]
  rw [hh, ht]

theorem retryGo_invocations_le {ε α : Type} (op : Nat → Except ε α)
    (delay : Nat) : ∀ remaining i,
    (retryGo op delay i remaining).invocations ≤ remaining + 1 := by
  intro remaining
  induction remaining with
  | zero =>
    intro i
    cases h : op i with
    | ok a => rw [retryGo_ok op delay i 0 a h]
    | error e => rw [retryGo_err_zero op delay i e h]
  | succ r ih =>
    intro i
    cases h : op i with
    | ok a => rw [retryGo_ok op delay i (r + 1) a h]; simp
    | error e =>
      have := ih (i + 1)
      rw [retryGo_err_succ op delay i r e h]
      simp only
      omega

theorem retryGo_success {ε α : Type} (op : Nat → Except ε α) (delay : Nat)
    (j : Nat) (a : α) : ∀ remaining i, j ≤ i + remaining → i ≤ j →
    op j = .ok a → (∀ t, i ≤ t → t < j → (op t).isOk = false) →
    retryGo op delay i remaining =
      ⟨.ok a, j - i + 1, (List.range (j - i)).map fun t => delay * 2 ^ (i + t)⟩ := by
  intro remaining
  induction remaining with
  | zero =>
    intro i h1 h2 hok _
    have hij : i = j := by omega
    subst hij
    rw [retryGo_ok op delay i 0 a hok]
    simp
  | succ r ih =>
    intro i h1 h2 hok hfail
    by_cases hij : i = j
    · subst hij
      rw [retryGo_ok op delay i (r + 1) a hok]
      simp
    · have hilt : i < j := by omega
      have hf : (op i).isOk = false := hfail i (by omega) hilt
      cases hopi : op i with
      | ok b => rw [hopi] at hf; simp [Except.isOk, Except.toBool] at hf
      | error e2 =>
        have hrest := ih (i + 1) (by omega) (by omega) hok
          (fun t ht1 ht2 => hfail t (by omega) ht2)
        rw [retryGo_err_succ op delay i r e2 hopi, hrest]
        have hn : j - i = (j - (i + 1)) + 1 := by omega
        rw [hn, ← delays_shift delay i (j - (i + 1))]

theorem retryGo_exhausted {ε α : Type} (op : Nat → Except ε α) (delay : Nat)
    (e : ε) : ∀ remaining i, (∀ t, i ≤ t → t ≤ i + remaining → (op t).isOk = false) →
    op (i + remaining) = .error e →
    retryGo op delay i remaining =
      ⟨.error e, remaining + 1, (List.range remaining).map fun t => delay * 2 ^ (i + t)⟩ := by
  intro remaining
  induction remaining with
  | zero =>
    intro i _ herr
    simp only [Nat.add_zero] at herr
    rw [retryGo_err_zero op delay i e herr]
    simp
  | succ r ih =>
    intro i hfail herr
    have hf : (op i).isOk = false := hfail i (by omega) (by omega)
    cases hopi : op i with
    | ok b => rw [hopi] at hf; simp [Except.isOk, Except.toBool] at hf
    | error e2 =>
      have hrest := ih (i + 1) (fun t ht1 ht2 => hfail t (by omega) (by omega))
        (by rw [show i + 1 + r = i + (r + 1) by omega]; exact herr)
      rw [retryGo_err_succ op delay i r e2 hopi, hrest]
      rw [← delays_shift delay i r]

/-! ## Lemmas about batch -/

theorem batchGo_all_ok (results : List (Except ApiError String)) :
    ∀ idx, (∀ r ∈ results, ∃ v, r = .ok v) →
    ∃ vs, batchGo results idx = (.ok vs, []) ∧ results = vs.map Except.ok := by
  induction results with
  | nil => intro idx _; exact ⟨[], rfl, rfl⟩
  | cons r rest ih =>
    intro idx h
    obtain ⟨v, rfl⟩ := h r (by simp)
    obtain ⟨vs, hb, hrest⟩ := ih (idx + 1) (fun x hx => h x (by simp [hx]))
    refine ⟨v :: vs, ?_, by simp [← hrest]⟩
    simp [batchGo, hb]

theorem batchGo_first_error (results : List (Except ApiError String)) :
    ∀ idx j e, results.get? j = some (.error e) →
    (∀ i, i < j → ∃ v, results.get? i = some (.ok v)) →
    batchGo results idx = (.error e, [idx + j]) := by
  induction results with
  | nil => intro idx j e hj _; simp at hj
  | cons r rest ih =>
    intro idx j e hj hlt
    cases j with
    | zero =>
      simp only [List.get?] at hj
      cases hj
      simp [batchGo]
    | succ j2 =>
      obtain ⟨v, hv⟩ := hlt 0 (by omega)
      simp only [List.get?] at hv
      cases hv
      have hrec := ih (idx + 1) j2 e (by simpa using hj)
        (fun i hi => by simpa using hlt (i + 1) (by omega))
      simp only [batchGo, hrec]
      refine Prod.ext rfl ?_
      simp only [List.cons.injEq, and_true]
      omega

/-! ## Case lemmas for the response interceptor -/

theorem runStep_of_ok (retried : Bool) (outcomes : Nat → Except AxiosError String)
    (refreshO : RefreshResult) (st : ClientState) (attempt : Nat) (p : String)
    (h : outcomes attempt = .ok p) :
    runStep retried outcomes refreshO st attempt =
      { result := .ok p, state := st, replays := 0 } := by
  rw [runStep, h]

theorem runStep_true_of_error (outcomes : Nat → Except AxiosError String)
    (refreshO : RefreshResult) (st : ClientState) (attempt : Nat) (e : AxiosError)
    (h : outcomes attempt = .error e) :
    runStep true outcomes refreshO st attempt =
      { result := .error (normalizeError e), state := st, replays := 0 } := by
  rw [runStep, h]
  simp

theorem runStep_of_not401 (outcomes : Nat → Except AxiosError String)
    (refreshO : RefreshResult) (st : ClientState) (attempt : Nat) (e : AxiosError)
    (h : outcomes attempt = .error e) (h401 : errStatus e ≠ some 401) :
    runStep false outcomes refreshO st attempt =
      { result := .error (normalizeError e), state := st, replays := 0 } := by
  rw [runStep, h]
  simp [h401]

theorem runStep_401_no_refresh_token (outcomes : Nat → Except AxiosError String)
    (refreshO : RefreshResult) (st : ClientState) (attempt : Nat) (e : AxiosError)
    (h : outcomes attempt = .error e) (h401 : errStatus e = some 401)
    (hrt : st.refresh = none) :
    runStep false outcomes refreshO st attempt =
      { result := .error (normalizeError e), state := st, replays := 0 } := by
  rw [runStep, h]
  simp [h401, hrt]

theorem runStep_401_refresh_ok (outcomes : Nat → Except AxiosError String)
    (st : ClientState) (attempt : Nat) (e : AxiosError) (tok rt : String)
    (h : outcomes attempt = .error e) (h401 : errStatus e = some 401)
    (hrt : st.refresh = some rt) :
    runStep false outcomes (.ok tok) st attempt =
      (let st2 := { st with refreshCalls := st.refreshCalls + 1, access := some tok }
       let r := runStep true outcomes (.ok tok) st2 (attempt + 1)
       { result := r.result, state := r.state, replays := r.replays + 1 }) := by
  rw [runStep, h]
  simp [h401, hrt]

theorem runStep_401_refresh_failed (outcomes : Nat → Except AxiosError String)
    (st : ClientState) (attempt : Nat) (e : AxiosError) (rt : String)
    (h : outcomes attempt = .error e) (h401 : errStatus e = some 401)
    (hrt : st.refresh = some rt) :
    runStep false outcomes .failed st attempt =
      { result := .error (normalizeError e), state := loggedOutState st, replays := 0 } := by
  rw [runStep, h]
  simp [h401, hrt, loggedOutState]

/-- A replayed request (its `_retry` flag set) never refreshes again and
never replays again: its handler leaves the state untouched. -/
theorem runStep_true_spec (outcomes : Nat → Except AxiosError String)
    (refreshO : RefreshResult) (st : ClientState) (attempt : Nat) :
    (runStep true outcomes refreshO st attempt).replays = 0 ∧
    (runStep true outcomes refreshO st attempt).state = st := by
  cases h : outcomes attempt with
  | ok p => rw [runStep_of_ok true outcomes refreshO st attempt p h]; exact ⟨rfl, rfl⟩
  | error e => rw [runStep_true_of_error outcomes refreshO st attempt e h]; exact ⟨rfl, rfl⟩

/-- Whenever the interceptor pipeline resolves a request successfully,
the refresh-token key and the user snapshot are unchanged: the only
branch that writes them (the refresh-failure logout) always rejects. -/
theorem runStep_ok_frame (outcomes : Nat → Except AxiosError String)
    (refreshO : RefreshResult) (st : ClientState) (attempt : Nat) (p : String)
    (h : (runStep false outcomes refreshO st attempt).result = .ok p) :
    (runStep false outcomes refreshO st attempt).state.refresh = st.refresh ∧
    (runStep false outcomes refreshO st attempt).state.user = st.user := by
  cases ho : outcomes attempt with
  | ok q =>
    rw [runStep_of_ok false outcomes refreshO st attempt q ho]
    exact ⟨rfl, rfl⟩
  | error e =>
    by_cases h401 : errStatus e = some 401
    · cases hrt : st.refresh with
      | none =>
        rw [runStep_401_no_refresh_token outcomes refreshO st attempt e ho h401 hrt]
        exact ⟨hrt, rfl⟩
      | some rt =>
        cases refreshO with
        | ok tok =>
          rw [runStep_401_refresh_ok outcomes st attempt e tok rt ho h401 hrt]
          simp only
          obtain ⟨_, hr2⟩ := runStep_true_spec outcomes (.ok tok)
            { st with refreshCalls := st.refreshCalls + 1, access := some tok } (attempt + 1)
          rw [hr2]
          exact ⟨hrt, rfl⟩
        | failed =>
          rw [runStep_401_refresh_failed outcomes st attempt e rt ho h401 hrt] at h
          simp at h
    · rw [runStep_of_not401 outcomes refreshO st attempt e ho h401]
      exact ⟨rfl, rfl⟩

theorem authRefreshToken_none (outcomes : Nat → Except AxiosError String)
    (refreshO : RefreshResult) (st : ClientState) (hrt : st.refresh = none) :
    authRefreshToken outcomes refreshO st = (.error .noToken, st) := by
  unfold authRefreshToken
  rw [hrt]

theorem authRefreshToken_ok (outcomes : Nat → Except AxiosError String)
    (refreshO : RefreshResult) (st : ClientState) (rt p : String)
    (hrt : st.refresh = some rt)
    (hres : (runStep false outcomes refreshO st 0).result = .ok p) :
    authRefreshToken outcomes refreshO st =
      (.ok p, { (runStep false outcomes refreshO st 0).state with access := some p }) := by
  unfold authRefreshToken
  rw [hrt]
  show (match (runStep false outcomes refreshO st 0).result with
    | .ok access =>
      (Except.ok access,
        { (runStep false outcomes refreshO st 0).state with access := some access })
    | .error e =>
      (Except.error (RefreshTokenError.post e),
        (runStep false outcomes refreshO st 0).state)) = _
  rw [hres]

theorem authRefreshToken_err (outcomes : Nat → Except AxiosError String)
    (refreshO : RefreshResult) (st : ClientState) (rt : String) (e : ApiError)
    (hrt : st.refresh = some rt)
    (hres : (runStep false outcomes refreshO st 0).result = .error e) :
    authRefreshToken outcomes refreshO st =
      (.error (.post e), (runStep false outcomes refreshO st 0).state) := by
  unfold authRefreshToken
  rw [hrt]
  show (match (runStep false outcomes refreshO st 0).result with
    | .ok access =>
      (Except.ok access,
        { (runStep false outcomes refreshO st 0).state with access := some access })
    | .error e =>
      (Except.error (RefreshTokenError.post e),
        (runStep false outcomes refreshO st 0).state)) = _
  rw [hres]

/-- Every result of the interceptor pipeline is either a payload or the
normalized form of some axios error. -/
theorem runStep_result_cases (retried : Bool) (outcomes : Nat → Except AxiosError String)
    (refreshO : RefreshResult) (st : ClientState) (attempt : Nat) :
    (∃ p, (runStep retried outcomes refreshO st attempt).result = .ok p) ∨
    (∃ e, (runStep retried outcomes refreshO st attempt).result = .error (normalizeError e)) := by
  cases retried with
  | true =>
    cases h : outcomes attempt with
    | ok p =>
      rw [runStep_of_ok true outcomes refreshO st attempt p h]
      exact Or.inl ⟨p, rfl⟩
    | error e =>
      rw [runStep_true_of_error outcomes refreshO st attempt e h]
      exact Or.inr ⟨e, rfl⟩
  | false =>
    cases h : outcomes attempt with
    | ok p =>
      rw [runStep_of_ok false outcomes refreshO st attempt p h]
      exact Or.inl ⟨p, rfl⟩
    | error e =>
      by_cases h401 : errStatus e = some 401
      · cases hrt : st.refresh with
        | none =>
          rw [runStep_401_no_refresh_token outcomes refreshO st attempt e h h401 hrt]
          exact Or.inr ⟨e, rfl⟩
        | some rt =>
          cases refreshO with
          | ok tok =>
            rw [runStep_401_refresh_ok outcomes st attempt e tok rt h h401 hrt]
            simp only
            cases h2 : outcomes (attempt + 1) with
            | ok p =>
              rw [runStep_of_ok true outcomes (.ok tok) _ (attempt + 1) p h2]
              exact Or.inl ⟨p, rfl⟩
            | error e2 =>
              rw [runStep_true_of_error outcomes (.ok tok) _ (attempt + 1) e2 h2]
              exact Or.inr ⟨e2, rfl⟩
          | failed =>
            rw [runStep_401_refresh_failed outcomes st attempt e rt h h401 hrt]
            exact Or.inr ⟨e, rfl⟩
      · rw [runStep_of_not401 outcomes refreshO st attempt e h h401]
        exact Or.inr ⟨e, rfl⟩

/-- When a cache lookup misses, the key is unbound in the cache the
lookup returns (a lazily evicted expired entry included). -/
theorem cacheGet_miss_find (c : RequestCache) (key : String) (now : Int)
    (h : (cacheGet c key now).1 = none) :
    cacheFind (cacheGet c key now).2 key = none := by
  unfold cacheGet at *
  cases hf : cacheFind c key with
  | none => simp [hf]
  | some item =>
    by_cases hex : now - item.timestamp > item.ttl
    · simp [hf, hex, cacheFind_delete_self]
    · rw [hf] at h
      simp [hex] at h

/-- The two-request schedule `sched2` is a legal interleaving of two 401
handlers. -/
theorem sched2_interleaving :
    Interleaving [handlerTrace "t1", handlerTrace "t2"] sched2 := by
  show Interleaving
    [[RAct.issueRefresh, RAct.completeRefresh "t1"],
     [RAct.issueRefresh, RAct.completeRefresh "t2"]]
    [RAct.issueRefresh, RAct.issueRefresh, RAct.completeRefresh "t1", RAct.completeRefresh "t2"]
  refine Interleaving.cons (PickHead.here _ _ _) ?_
  refine Interleaving.cons (PickHead.there _ (PickHead.here _ _ _)) ?_
  refine Interleaving.cons (PickHead.here _ _ _) ?_
  refine Interleaving.cons (PickHead.there _ (PickHead.here _ _ _)) ?_
  exact Interleaving.nil _ (by decide)

/-! ## Claims -/

/-- C1 (amended): the interceptor keeps no shared pending-refresh
future, so N concurrent requests that each observe a 401 before any
refresh resolves each issue their own refresh network call: in every
cooperative interleaving of N 401 handlers starting from a state with a
stored refresh token, exactly N refresh calls are issued (not one), and
each request replays only after its own refresh call resolves. -/
theorem c1_one_refresh_call_per_request (toks : List String) (σ : IState)
    (zs : List RAct) (h1 : Interleaving (toks.map handlerTrace) zs)
    (h2 : σ.refresh.isSome) :
    (iexecList σ zs).refreshCalls = σ.refreshCalls + toks.length ∧
    (iexecList σ zs).replays = σ.replays + toks.length := by
  constructor
  · rw [iexecList_refreshCalls σ zs h2, interleaving_countP isIssue h1,
      sum_countP_handlerTraces toks isIssue handlerTrace_countP_issue]
  · rw [iexecList_replays σ zs, interleaving_countP isComplete h1,
      sum_countP_handlerTraces toks isComplete handlerTrace_countP_complete]

/-- C1 counterexample: a legal schedule of two 401 handlers that both
observe expiry before either refresh resolves issues two refresh network
calls, refuting the claim that exactly one is issued. -/
theorem c1_counterexample :
    Interleaving [handlerTrace "t1", handlerTrace "t2"] sched2 ∧
    (iexecList sigma0 sched2).refreshCalls = 2 ∧ (2 : Nat) ≠ 1 :=
  ⟨sched2_interleaving, by decide, by decide⟩

/-- C1 witness: the amended theorem evaluated on the concrete
two-request schedule. -/
theorem c1_witness :
    (iexecList sigma0 sched2).refreshCalls = sigma0.refreshCalls + 2 ∧
    (iexecList sigma0 sched2).replays = sigma0.replays + 2 := by
  have h := c1_one_refresh_call_per_request ["t1", "t2"] sigma0 sched2
    sched2_interleaving rfl
  simpa using h

/-- C2: a request is auth-retried at most once. A handler whose `_retry`
flag is already set never replays and never issues a refresh; a fresh
request replays at most once and issues at most one refresh call; and
when the replay itself fails again (for example with another 401), its
error is rejected as-is with exactly one replay and one refresh call. -/
theorem c2_at_most_one_auth_retry (outcomes : Nat → Except AxiosError String)
    (refreshO : RefreshResult) (st : ClientState) (attempt : Nat) :
    (runStep true outcomes refreshO st attempt).replays = 0 ∧
    (runStep true outcomes refreshO st attempt).state.refreshCalls = st.refreshCalls ∧
    (runStep false outcomes refreshO st attempt).replays ≤ 1 ∧
    (runStep false outcomes refreshO st attempt).state.refreshCalls ≤ st.refreshCalls + 1 ∧
    (∀ e e2 tok rt, outcomes attempt = .error e → errStatus e = some 401 →
      st.refresh = some rt → refreshO = .ok tok → outcomes (attempt + 1) = .error e2 →
      (runStep false outcomes refreshO st attempt).result = .error (normalizeError e2) ∧
      (runStep false outcomes refreshO st attempt).replays = 1 ∧
      (runStep false outcomes refreshO st attempt).state.refreshCalls = st.refreshCalls + 1) := by
  obtain ⟨ht1, ht2⟩ := runStep_true_spec outcomes refreshO st attempt
  refine ⟨ht1, by rw [ht2], ?_, ?_, ?_⟩
  · cases h : outcomes attempt with
    | ok p => rw [runStep_of_ok false outcomes refreshO st attempt p h]; exact Nat.zero_le 1
    | error e =>
      by_cases h401 : errStatus e = some 401
      · cases hrt : st.refresh with
        | none =>
          rw [runStep_401_no_refresh_token outcomes refreshO st attempt e h h401 hrt]
          exact Nat.zero_le 1
        | some rt =>
          cases refreshO with
          | ok tok =>
            rw [runStep_401_refresh_ok outcomes st attempt e tok rt h h401 hrt]
            simp only
            obtain ⟨hr1, _⟩ := runStep_true_spec outcomes (.ok tok)
              { st with refreshCalls := st.refreshCalls + 1, access := some tok } (attempt + 1)
            omega
          | failed =>
            rw [runStep_401_refresh_failed outcomes st attempt e rt h h401 hrt]
            exact Nat.zero_le 1
      · rw [runStep_of_not401 outcomes refreshO st attempt e h h401]
        exact Nat.zero_le 1
  · cases h : outcomes attempt with
    | ok p =>
      rw [runStep_of_ok false outcomes refreshO st attempt p h]
      show st.refreshCalls ≤ st.refreshCalls + 1
      omega
    | error e =>
      by_cases h401 : errStatus e = some 401
      · cases hrt : st.refresh with
        | none =>
          rw [runStep_401_no_refresh_token outcomes refreshO st attempt e h h401 hrt]
          show st.refreshCalls ≤ st.refreshCalls + 1
          omega
        | some rt =>
          cases refreshO with
          | ok tok =>
            rw [runStep_401_refresh_ok outcomes st attempt e tok rt h h401 hrt]
            simp only
            obtain ⟨_, hr2⟩ := runStep_true_spec outcomes (.ok tok)
              { st with refreshCalls := st.refreshCalls + 1, access := some tok } (attempt + 1)
            rw [hr2]
          | failed =>
            rw [runStep_401_refresh_failed outcomes st attempt e rt h h401 hrt]
            simp [loggedOutState]
      · rw [runStep_of_not401 outcomes refreshO st attempt e h h401]
        show st.refreshCalls ≤ st.refreshCalls + 1
        omega
  · intro e e2 tok rt h h401 hrt hro h2
    subst hro
    rw [runStep_401_refresh_ok outcomes st attempt e tok rt h h401 hrt]
    simp only
    rw [runStep_true_of_error outcomes (.ok tok)
      { st with refreshCalls := st.refreshCalls + 1, access := some tok } (attempt + 1) e2 h2]
    exact ⟨rfl, rfl, rfl⟩

/-- C2 witness: a request whose replay also returns 401 is replayed
exactly once, with one refresh call, and fails with the replay's
normalized error. -/
theorem c2_witness :
    (runStep false outAll401 (.ok "newTok") stAuthed 0).result = .error (normalizeError err401) ∧
    (runStep false outAll401 (.ok "newTok") stAuthed 0).replays = 1 ∧
    (runStep false outAll401 (.ok "newTok") stAuthed 0).state.refreshCalls = stAuthed.refreshCalls + 1 := by
  exact (c2_at_most_one_auth_retry outAll401 (.ok "newTok") stAuthed 0).2.2.2.2
    err401 err401 "newTok" "ref" rfl rfl rfl rfl rfl

/-- C3 (amended): `RequestCache.get` serves an entry while
`now - storedAt ≤ ttl` (the closed interval `[t0, t0 + T]`, not the
half-open `[t0, t0 + T)` of the claim), leaving the cache unchanged;
strictly after `storedAt + ttl` it evicts the entry and returns nothing;
a missing key misses without changing the cache. -/
theorem c3_cache_ttl_spec (c : RequestCache) (k v : String) (ttl t0 now : Int) :
    (∀ item, cacheFind c k = some item → now - item.timestamp ≤ item.ttl →
      cacheGet c k now = (some item.data, c)) ∧
    (∀ item, cacheFind c k = some item → now - item.timestamp > item.ttl →
      (cacheGet c k now).1 = none ∧ cacheFind (cacheGet c k now).2 k = none) ∧
    (cacheFind c k = none → cacheGet c k now = (none, c)) ∧
    (now - t0 ≤ ttl →
      cacheGet (cacheSet c k v ttl t0) k now = (some v, cacheSet c k v ttl t0)) ∧
    (now - t0 > ttl → (cacheGet (cacheSet c k v ttl t0) k now).1 = none) := by
  have h1 : ∀ (cc : RequestCache) item, cacheFind cc k = some item →
      now - item.timestamp ≤ item.ttl → cacheGet cc k now = (some item.data, cc) := by
    intro cc item hf hfresh
    unfold cacheGet
    rw [hf]
    show (if now - item.timestamp > item.ttl then (none, cacheDelete cc k)
      else (some item.data, cc)) = (some item.data, cc)
    rw [if_neg (by omega)]
  have h2 : ∀ (cc : RequestCache) item, cacheFind cc k = some item →
      now - item.timestamp > item.ttl →
      (cacheGet cc k now).1 = none ∧ cacheFind (cacheGet cc k now).2 k = none := by
    intro cc item hf hex
    unfold cacheGet
    rw [hf]
    show (if now - item.timestamp > item.ttl then (none, cacheDelete cc k)
        else (some item.data, cc)).1 = none ∧
      cacheFind (if now - item.timestamp > item.ttl then (none, cacheDelete cc k)
        else (some item.data, cc)).2 k = none
    rw [if_pos hex]
    exact ⟨rfl, cacheFind_delete_self cc k⟩
  refine ⟨h1 c, h2 c, ?_, ?_, ?_⟩
  · intro hf
    unfold cacheGet
    rw [hf]
  · intro hfresh
    exact h1 (cacheSet c k v ttl t0) ⟨v, t0, ttl⟩ (cacheFind_set_self c k v ttl t0) hfresh
  · intro hex
    exact (h2 (cacheSet c k v ttl t0) ⟨v, t0, ttl⟩ (cacheFind_set_self c k v ttl t0) hex).1

/-- C3 counterexample: an entry set at time 0 with ttl 5 is still served
at time exactly 5, although `5 < 0 + 5` is false, refuting the claimed
serving condition `now < storedAt + ttl`. -/
theorem c3_counterexample :
    (cacheGet (cacheSet [] "k" "v" 5 0) "k" 5).1 = some "v" ∧ ¬ ((5 : Int) < 0 + 5) := by
  decide

/-- C3 witness: the amended theorem evaluated on a concrete fresh
lookup. -/
theorem c3_witness :
    cacheGet (cacheSet [] "kk" "vv" 10 0) "kk" 3 = (some "vv", cacheSet [] "kk" "vv" 10 0) :=
  (c3_cache_ttl_spec [] "kk" "vv" 10 0 3).2.2.2.1 (by decide)

/-- C4: when the refresh attempt fails or no refresh token is stored, a
401-failing request rejects with the normalized terminal error (the
spec's `AuthExpired` case: refresh failed or unavailable, terminal for
this request) and is never replayed. -/
theorem c4_auth_expired_terminal (outcomes : Nat → Except AxiosError String)
    (refreshO : RefreshResult) (st : ClientState) (attempt : Nat) (e : AxiosError)
    (h1 : outcomes attempt = .error e) (h2 : errStatus e = some 401)
    (h3 : refreshO = .failed ∨ st.refresh = none) :
    (runStep false outcomes refreshO st attempt).result = .error (normalizeError e) ∧
    (runStep false outcomes refreshO st attempt).replays = 0 := by
  cases hrt : st.refresh with
  | none =>
    rw [runStep_401_no_refresh_token outcomes refreshO st attempt e h1 h2 hrt]
    exact ⟨rfl, rfl⟩
  | some rt =>
    rcases h3 with hro | hcontra
    · subst hro
      rw [runStep_401_refresh_failed outcomes st attempt e rt h1 h2 hrt]
      exact ⟨rfl, rfl⟩
    · rw [hcontra] at hrt
      cases hrt

/-- C4 witness: a concrete 401 whose refresh call fails rejects the
normalized original error with zero replays. -/
theorem c4_witness :
    (runStep false outAll401 .failed stAuthed 0).result = .error (normalizeError err401) ∧
    (runStep false outAll401 .failed stAuthed 0).replays = 0 :=
  c4_auth_expired_terminal outAll401 .failed stAuthed 0 err401 rfl rfl (Or.inl rfl)

/-- C5 (amended): a failed refresh removes the access token, refresh
token and user snapshot, redirects to the login page, and every
subsequently notified listener receives `(false, null)`; the in-memory
request cache, however, is left untouched by this branch (it is not
cleared). -/
theorem c5_failed_refresh_logout (outcomes : Nat → Except AxiosError String)
    (st : ClientState) (attempt : Nat) (e : AxiosError) (rt : String)
    (h1 : outcomes attempt = .error e) (h2 : errStatus e = some 401)
    (h3 : st.refresh = some rt) :
    (runStep false outcomes .failed st attempt).state.access = none ∧
    (runStep false outcomes .failed st attempt).state.refresh = none ∧
    (runStep false outcomes .failed st attempt).state.user = none ∧
    (runStep false outcomes .failed st attempt).state.redirected = true ∧
    (runStep false outcomes .failed st attempt).state.cache = st.cache ∧
    isAuthenticated (runStep false outcomes .failed st attempt).state = false ∧
    notifyStateChange (runStep false outcomes .failed st attempt).state = (false, none) := by
  rw [runStep_401_refresh_failed outcomes st attempt e rt h1 h2 h3]
  simp [loggedOutState, isAuthenticated, notifyStateChange, getLocalUser]

/-- C5 counterexample: after a failed refresh the request cache still
holds its entry — the interceptor's failure branch never clears
`requestCache`, refuting the claim that the cache is cleared. -/
theorem c5_counterexample :
    (runStep false outAll401 .failed stWithCache 0).state.cache = [("doc", entry0)] ∧
    ([("doc", entry0)] : RequestCache) ≠ [] := by
  constructor
  · rw [runStep_401_refresh_failed outAll401 stWithCache 0 err401 "ref" rfl rfl rfl]
    rfl
  · decide

/-- C5 witness: the amended theorem evaluated on a concrete
authenticated state with a cached entry. -/
theorem c5_witness :
    (runStep false outAll401 .failed stWithCache 0).state.access = none ∧
    (runStep false outAll401 .failed stWithCache 0).state.refresh = none ∧
    (runStep false outAll401 .failed stWithCache 0).state.user = none ∧
    notifyStateChange (runStep false outAll401 .failed stWithCache 0).state = (false, none) := by
  have h := c5_failed_refresh_logout outAll401 stWithCache 0 err401 "ref" rfl rfl rfl
  exact ⟨h.1, h.2.1, h.2.2.1, h.2.2.2.2.2.2⟩

/-- C6: retry invokes the operation at most `maxRetries + 1` times;
when attempt `j ≤ maxRetries` is the first success it returns that value
after `j + 1` invocations with backoff delays `delay * 2 ^ 0, ...,
delay * 2 ^ (j - 1)`; when every attempt fails it rethrows the last
error after `maxRetries + 1` invocations. -/
theorem c6_retry_spec {ε α : Type} (op : Nat → Except ε α) (maxRetries delay : Nat) :
    (retry op maxRetries delay).invocations ≤ maxRetries + 1 ∧
    (∀ j a, j ≤ maxRetries → op j = .ok a → (∀ t, t < j → (op t).isOk = false) →
      retry op maxRetries delay =
        ⟨.ok a, j + 1, (List.range j).map fun t => delay * 2 ^ t⟩) ∧
    (∀ e, (∀ t, t ≤ maxRetries → (op t).isOk = false) → op maxRetries = .error e →
      retry op maxRetries delay =
        ⟨.error e, maxRetries + 1, (List.range maxRetries).map fun t => delay * 2 ^ t⟩) := by
  refine ⟨retryGo_invocations_le op delay maxRetries 0, ?_, ?_⟩
  · intro j a hj hok hfail
    have h := retryGo_success op delay j a maxRetries 0 (by omega) (by omega) hok
      (fun t _ ht2 => hfail t ht2)
    simpa using h
  · intro e hfail herr
    have h := retryGo_exhausted op delay e maxRetries 0
      (fun t _ ht2 => hfail t (by omega)) (by rw [Nat.zero_add]; exact herr)
    simpa using h

/-- C6 witness: the claim's scenario — an operation failing twice then
succeeding, with `maxRetries = 3` and base delay 100ms, is invoked
exactly 3 times, sleeps 100ms then 200ms, and yields the success
value. -/
theorem c6_witness : retry opW 3 100 = ⟨.ok 42, 3, [100, 200]⟩ := by
  have h := (c6_retry_spec opW 3 100).2.1 2 42 (by omega) rfl
    (by intro t ht; interval_cases t <;> rfl)
  rw [h]
  decide

/-- C7 (amended): batch collects every settled outcome (the input list),
returns all values when every operation succeeds, and on the first
failure (in index order) rejects the whole batch with that failure while
logging only that first failure's index — failures after the first are
not logged, because the throw aborts the result-mapping pass. -/
theorem c7_batch_spec (results : List (Except ApiError String)) :
    ((∀ r ∈ results, ∃ v, r = .ok v) →
      ∃ vs, batchRun results = (.ok vs, []) ∧ results = vs.map Except.ok) ∧
    (∀ j e, results.get? j = some (.error e) →
      (∀ i, i < j → ∃ v, results.get? i = some (.ok v)) →
      batchRun results = (.error e, [j])) := by
  constructor
  · exact batchGo_all_ok results 0
  · intro j e hj hlt
    have h := batchGo_first_error results 0 j e hj hlt
    simpa using h

/-- C7 counterexample: with two failing operations, the whole batch
rejects with the first failure but only index 0 is logged — the second
failure's context is never logged, refuting "logs each individual
failure's context". -/
theorem c7_counterexample :
    batchRun [.error errA, .error errB] = (.error errA, [0]) ∧
    1 ∉ (batchRun [.error errA, .error errB]).2 := by
  decide

/-- C7 witness: the amended theorem evaluated on one success followed by
two failures: the batch rejects with the first failure and logs exactly
its index. -/
theorem c7_witness : batchRun [.ok "a", .error errA, .error errB] = (.error errA, [1]) := by
  have h := (c7_batch_spec [.ok "a", .error errA, .error errB]).2 1 errA rfl
    (by intro i hi; interval_cases i; exact ⟨"a", rfl⟩)
  exact h

/-- C8: every error the interceptor rejects is the normalized
`{message, code, details}` of some axios error; for a transport-level
failure (no server response) the message falls back to the transport
description (or the generic text when even that is empty), the code is
the transport code and details are absent; when the server body carries
no message the same transport fallback applies; and when the body has no
`details` field, `details` carries the whole raw server payload. -/
theorem c8_error_normalization (outcomes : Nat → Except AxiosError String)
    (refreshO : RefreshResult) (st : ClientState) (attempt : Nat) :
    (∀ err, (runStep false outcomes refreshO st attempt).result = .error err →
      ∃ e, err = normalizeError e) ∧
    (∀ e : AxiosError, e.response = none →
      (normalizeError e).message = jsOr e.message "请求失败" ∧
      (normalizeError e).code = e.code ∧ (normalizeError e).details = none) ∧
    (∀ e r, e.response = some r → r.data.message = none →
      (normalizeError e).message = jsOr e.message "请求失败") ∧
    (∀ e r, e.response = some r → r.data.details = none →
      (normalizeError e).details = some (Sum.inr r.data)) := by
  refine ⟨?_, ?_, ?_, ?_⟩
  · intro err herr
    rcases runStep_result_cases false outcomes refreshO st attempt with ⟨p, hp⟩ | ⟨e, he⟩
    · rw [hp] at herr
      cases herr
    · rw [he] at herr
      exact ⟨e, (Except.error.injEq _ _ ▸ herr).symm⟩
  · intro e h
    simp [normalizeError, h, jsOrOpt, jsOrOpt2]
  · intro e r h hm
    simp [normalizeError, h, hm, jsOrOpt]
  · intro e r h hd
    simp [normalizeError, h, hd]

/-- C8 witness: a concrete transport failure normalizes to the
transport-level message, the transport code, and no details. -/
theorem c8_witness :
    (normalizeError netErr).message = jsOr netErr.message "请求失败" ∧
    (normalizeError netErr).code = netErr.code ∧
    (normalizeError netErr).details = none :=
  (c8_error_normalization outAll401 .failed stAuthed 0).2.1 netErr rfl

/-- C9: on the successful 401-refresh path only the access-token key is
written: the interceptor's refresh branch leaves the refresh token, the
user snapshot and the cache unchanged while storing the new access
token; and whenever `AuthService.refreshToken` succeeds (its POST goes
through the intercepted instance), the refresh-token key and the user
snapshot are unchanged and only the access-token key holds the newly
returned token. -/
theorem c9_refresh_writes_only_access (outcomes : Nat → Except AxiosError String)
    (st : ClientState) (attempt : Nat) (e : AxiosError) (tok rt : String)
    (h1 : outcomes attempt = .error e) (h2 : errStatus e = some 401)
    (h3 : st.refresh = some rt) :
    ((runStep false outcomes (.ok tok) st attempt).state.refresh = st.refresh ∧
     (runStep false outcomes (.ok tok) st attempt).state.user = st.user ∧
     (runStep false outcomes (.ok tok) st attempt).state.access = some tok ∧
     (runStep false outcomes (.ok tok) st attempt).state.cache = st.cache) ∧
    (∀ (outcomes2 : Nat → Except AxiosError String) (refreshO2 : RefreshResult)
        (st2 : ClientState) (access : String),
      (authRefreshToken outcomes2 refreshO2 st2).1 = .ok access →
      (authRefreshToken outcomes2 refreshO2 st2).2.refresh = st2.refresh ∧
      (authRefreshToken outcomes2 refreshO2 st2).2.user = st2.user ∧
      (authRefreshToken outcomes2 refreshO2 st2).2.access = some access) := by
  constructor
  · rw [runStep_401_refresh_ok outcomes st attempt e tok rt h1 h2 h3]
    simp only
    obtain ⟨_, hr2⟩ := runStep_true_spec outcomes (.ok tok)
      { st with refreshCalls := st.refreshCalls + 1, access := some tok } (attempt + 1)
    rw [hr2]
    exact ⟨rfl, rfl, rfl, rfl⟩
  · intro outcomes2 refreshO2 st2 access hok
    cases hrt : st2.refresh with
    | none =>
      rw [authRefreshToken_none outcomes2 refreshO2 st2 hrt] at hok
      simp at hok
    | some rt2 =>
      cases hres : (runStep false outcomes2 refreshO2 st2 0).result with
      | error e2 =>
        rw [authRefreshToken_err outcomes2 refreshO2 st2 rt2 e2 hrt hres] at hok
        simp at hok
      | ok p =>
        obtain ⟨hf1, hf2⟩ := runStep_ok_frame outcomes2 refreshO2 st2 0 p hres
        rw [authRefreshToken_ok outcomes2 refreshO2 st2 rt2 p hrt hres] at hok ⊢
        have hpa : p = access := by simpa using hok
        subst hpa
        exact ⟨hf1.trans hrt, hf2, rfl⟩

/-- C9 witness: the frame property evaluated on a concrete successful
interceptor refresh and a concrete successful `refreshToken` call. -/
theorem c9_witness :
    (runStep false outAll401 (.ok "newTok") stAuthed 0).state.refresh = stAuthed.refresh ∧
    (runStep false outAll401 (.ok "newTok") stAuthed 0).state.user = stAuthed.user ∧
    (runStep false outAll401 (.ok "newTok") stAuthed 0).state.access = some "newTok" ∧
    (authRefreshToken okPost .failed stAuthed).2.refresh = stAuthed.refresh ∧
    (authRefreshToken okPost .failed stAuthed).2.user = stAuthed.user ∧
    (authRefreshToken okPost .failed stAuthed).2.access = some "srvAcc" := by
  have h := c9_refresh_writes_only_access outAll401 stAuthed 0 err401 "newTok" "ref" rfl rfl rfl
  have hres : (runStep false okPost .failed stAuthed 0).result = .ok "srvAcc" := by
    rw [runStep_of_ok false okPost .failed stAuthed 0 "srvAcc" rfl]
  have hok : (authRefreshToken okPost .failed stAuthed).1 = .ok "srvAcc" := by
    rw [authRefreshToken_ok okPost .failed stAuthed "ref" "srvAcc" rfl hres]
  have h2 := h.2 okPost .failed stAuthed "srvAcc" hok
  exact ⟨h.1.1, h.1.2.1, h.1.2.2.1, h2.1, h2.2.1, h2.2.2⟩

/-- Behaviour of `cachedApiService.get` when caching is enabled. -/
theorem cachedGet_enabled (now : Int) (url pkey : String) (cfgCache : Option Bool)
    (cfgTtl : Option Int) (net : Except ApiError String) (c : RequestCache)
    (hen : cfgCache ≠ some false) :
    cachedGet now url pkey cfgCache cfgTtl net c =
      (match (cacheGet c (url ++ "_" ++ pkey) now).1 with
       | some v => (Except.ok v, (cacheGet c (url ++ "_" ++ pkey) now).2)
       | none =>
         match net with
         | .error e => (.error e, (cacheGet c (url ++ "_" ++ pkey) now).2)
         | .ok data =>
           (.ok data, cacheSet (cacheGet c (url ++ "_" ++ pkey) now).2
             (url ++ "_" ++ pkey) data (cfgTtl.getD defaultTtl) now)) := by
  unfold cachedGet
  simp only [if_pos hen]

/-- Behaviour of `cachedApiService.get` when the caller disabled
caching: the cache is neither read nor written. -/
theorem cachedGet_disabled (now : Int) (url pkey : String)
    (cfgTtl : Option Int) (net : Except ApiError String) (c : RequestCache) :
    cachedGet now url pkey (some false) cfgTtl net c =
      (match net with
       | .error e => (.error e, c)
       | .ok data => (.ok data, c)) := by
  unfold cachedGet
  simp

/-- C10 (amended): `cachedApiService.get` never writes a cache entry on
failure — if the network GET throws, the error propagates and the key
stays unbound after the miss (the only possible change at that key is the
lookup's lazy eviction of an already-expired entry, which happens before
the network call); other keys are never affected; successful payloads
are stored under the request key, and only when caching is not
disabled. -/
theorem c10_no_caching_of_failures (now : Int) (url pkey : String)
    (cfgCache : Option Bool) (cfgTtl : Option Int) (net : Except ApiError String)
    (c : RequestCache) :
    (∀ e, net = .error e → cfgCache ≠ some false →
      (cacheGet c (url ++ "_" ++ pkey) now).1 = none →
      cachedGet now url pkey cfgCache cfgTtl net c =
        (.error e, (cacheGet c (url ++ "_" ++ pkey) now).2) ∧
      cacheFind (cachedGet now url pkey cfgCache cfgTtl net c).2 (url ++ "_" ++ pkey) = none) ∧
    (∀ e, net = .error e → cfgCache = some false →
      cachedGet now url pkey cfgCache cfgTtl net c = (.error e, c)) ∧
    (∀ e k2, net = .error e → k2 ≠ url ++ "_" ++ pkey →
      cacheFind (cachedGet now url pkey cfgCache cfgTtl net c).2 k2 = cacheFind c k2) ∧
    (∀ data, net = .ok data → cfgCache ≠ some false →
      (cacheGet c (url ++ "_" ++ pkey) now).1 = none →
      cacheFind (cachedGet now url pkey cfgCache cfgTtl net c).2 (url ++ "_" ++ pkey) =
        some { data := data, timestamp := now, ttl := cfgTtl.getD defaultTtl }) ∧
    (∀ data, net = .ok data → cfgCache = some false →
      cachedGet now url pkey cfgCache cfgTtl net c = (.ok data, c)) := by
  refine ⟨?_, ?_, ?_, ?_, ?_⟩
  · intro e he hen hmiss
    rw [cachedGet_enabled now url pkey cfgCache cfgTtl net c hen, hmiss, he]
    exact ⟨rfl, cacheGet_miss_find c (url ++ "_" ++ pkey) now hmiss⟩
  · intro e he hdis
    subst hdis
    rw [cachedGet_disabled now url pkey cfgTtl net c, he]
  · intro e k2 he hne
    by_cases hdis : cfgCache = some false
    · subst hdis
      rw [cachedGet_disabled now url pkey cfgTtl net c, he]
    · rw [cachedGet_enabled now url pkey cfgCache cfgTtl net c hdis]
      cases hm : (cacheGet c (url ++ "_" ++ pkey) now).1 with
      | some v => exact cacheGet_frame c (url ++ "_" ++ pkey) k2 now hne
      | none =>
        rw [he]
        exact cacheGet_frame c (url ++ "_" ++ pkey) k2 now hne
  · intro data hd hen hmiss
    rw [cachedGet_enabled now url pkey cfgCache cfgTtl net c hen, hmiss, hd]
    exact cacheFind_set_self (cacheGet c (url ++ "_" ++ pkey) now).2
      (url ++ "_" ++ pkey) data (cfgTtl.getD defaultTtl) now
  · intro data hd hdis
    subst hdis
    rw [cachedGet_disabled now url pkey cfgTtl net c, hd]

/-- C10 counterexample: with an expired entry under the request key, a
failing network GET leaves the key unbound afterwards — the lookup's
eviction changed the cache at that key even though the GET threw,
refuting "the cache is unchanged for that key". -/
theorem c10_counterexample :
    (cachedGet 100 "u" "p" none none (.error errA) cExp).1 = .error errA ∧
    cacheFind cExp "u_p" = some { data := "old", timestamp := 0, ttl := 5 } ∧
    cacheFind (cachedGet 100 "u" "p" none none (.error errA) cExp).2 "u_p" = none := by
  decide

/-- C10 witness: the amended theorem evaluated on an empty cache and a
failing GET: the error propagates and nothing is stored. -/
theorem c10_witness :
    cachedGet 50 "u" "p" none none (.error errA) [] = (.error errA, []) ∧
    cacheFind (cachedGet 50 "u" "p" none none (.error errA) []).2 "u_p" = none := by
  have h := (c10_no_caching_of_failures 50 "u" "p" none none (.error errA) []).1
    errA rfl (by decide) (by decide)
  refine ⟨h.1.trans ?_, h.2⟩
  decide
